import Mathlib

/-!
# Voice-Calc: verification of the session manager and accumulator

Shallow embedding of the Voice-Calc repository:

* `OperationType`, `HistoryItem` — from `types.ts`;
* `handleOperation`, `AppState` — the accumulator update callback of the
  App component (`src/unnamed/part_000`);
* `visStep`, `visualizerTotals` — the running-total fold of
  `src/components/Visualizer.tsx`;
* `HookState`, `connect`, `disconnect`, `onopen`, `onmessage`, `onerror`,
  `onclose`, `onaudioprocess` — the `useLiveMath` hook
  (`src/unnamed/part_001`), modelled as a state machine on `HookState`
  whose handlers also emit a list of observable `HookOutput`s (callback
  invocations, tool acknowledgements, scheduled playback starts).

JavaScript numbers are embedded as `ℚ`.  Handlers are sequential, matching
the spec's single-control-thread event model.
-/

namespace VoiceCalc

/-- The operation enumeration from `types.ts`. -/
inductive OperationType where
  | ADD
  | SUBTRACT
  | MULTIPLY
  | DIVIDE
  | RESET
  | UNKNOWN
  deriving DecidableEq, Repr

/-- `HistoryItem` from `types.ts`: `{ id; value; operation; timestamp }`. -/
structure HistoryItem where
  id : String
  value : ℚ
  operation : OperationType
  timestamp : ℕ
  deriving DecidableEq, Repr

/-- The App component's state: `currentTotal` and `history`
(`src/unnamed/part_000`). -/
structure AppState where
  currentTotal : ℚ
  history : List HistoryItem
  deriving DecidableEq, Repr

/-- Initial App state: `useState(0)` and `useState([])`. -/
def initialApp : AppState := { currentTotal := 0, history := [] }

/-- The `switch (op)` block of `handleOperation` computing `newTotal` from
`prevTotal`.  `UNKNOWN` has no case and falls through, leaving the total
unchanged; `DIVIDE` is guarded by `if (value !== 0)`. -/
def stepTotal (prevTotal : ℚ) (op : OperationType) (value : ℚ) : ℚ :=
  match op with
  | OperationType.ADD => prevTotal + value
  | OperationType.SUBTRACT => prevTotal - value
  | OperationType.MULTIPLY => prevTotal * value
  | OperationType.DIVIDE => if value ≠ 0 then prevTotal / value else prevTotal
  | OperationType.RESET => 0
  | OperationType.UNKNOWN => prevTotal

/-- The App's operation callback `handleOperation` (`src/unnamed/part_000`):
compute the new total, then on `RESET` clear the history and return `0`, and
otherwise append a `HistoryItem` (with the fresh `id` from
`crypto.randomUUID()` and the `Date.now()` timestamp, passed here as
environment inputs) and return the new total. -/
def handleOperation (s : AppState) (op : OperationType) (value : ℚ)
    (freshId : String) (ts : ℕ) : AppState :=
  let newTotal := stepTotal s.currentTotal op value
  if op = OperationType.RESET then
    { currentTotal := 0, history := [] }
  else
    { currentTotal := newTotal,
      history := s.history ++
        [{ id := freshId, value := value, operation := op, timestamp := ts }] }

/-- One step of the Visualizer's running-total recomputation
(`src/components/Visualizer.tsx`): the `if/else if` chain over
`h.operation`, with the divide-by-zero guard and any other operation
(`UNKNOWN`) leaving the total unchanged. -/
def visStep (runningTotal : ℚ) (h : HistoryItem) : ℚ :=
  if h.operation = OperationType.RESET then 0
  else if h.operation = OperationType.ADD then runningTotal + h.value
  else if h.operation = OperationType.SUBTRACT then runningTotal - h.value
  else if h.operation = OperationType.MULTIPLY then runningTotal * h.value
  else if h.operation = OperationType.DIVIDE then
    if h.value ≠ 0 then runningTotal / h.value else runningTotal
  else runningTotal

/-- The Visualizer's chart points, totals only: the initial `Start` point at
`0` followed by the running total after each history item. -/
def visualizerTotals (history : List HistoryItem) : List ℚ :=
  List.scanl visStep 0 history

/-- Apply a sequence of operation-callback invocations
`(op, value, freshId, timestamp)` to an `AppState`. -/
def applyOps (s : AppState) : List (OperationType × ℚ × String × ℕ) → AppState
  | [] => s
  | (op, v, i, ts) :: rest => applyOps (handleOperation s op v i ts) rest

/-!
## The `useLiveMath` hook (`src/unnamed/part_001`)

The hook's mutable state (React state + refs) is collected into `HookState`;
each callback of the hook becomes a function on it.  Handlers that notify
the outside world (the `onOperation` / `onTranscriptUpdate` props, the tool
acknowledgement sent back over the session, audio buffers scheduled on the
output context) additionally return the list of those observable effects,
in program order.
-/

/-- The hook's state: React state `isConnected` / `isConnecting` / `error`
plus the refs.  Audio contexts and the session promise are modelled by
whether the ref currently holds one (`null`-ness); `sources` is the size of
the `sourcesRef` set of currently-scheduled output buffers. -/
structure HookState where
  isConnected : Bool
  isConnecting : Bool
  error : Option String
  inputCtxOpen : Bool
  outputCtxOpen : Bool
  nextStartTime : ℚ
  sources : ℕ
  sessionOpen : Bool
  active : Bool
  deriving DecidableEq, Repr

/-- The hook's initial state: all `useState` initials and `null`/empty refs. -/
def initialHook : HookState :=
  { isConnected := false, isConnecting := false, error := none,
    inputCtxOpen := false, outputCtxOpen := false, nextStartTime := 0,
    sources := 0, sessionOpen := false, active := false }

/-- One inbound function call from `message.toolCall.functionCalls`:
`fc.id`, `fc.name`, and the two argument fields `args.operation` (an
arbitrary string on the wire) and `args.value` (after `Number(...)`). -/
structure FunctionCall where
  id : String
  name : String
  operation : String
  value : ℚ
  deriving DecidableEq, Repr

/-- An inbound `LiveServerMessage`, reduced to the three fields `onmessage`
inspects: the optional tool call (its function-call list), the optional
input transcription text, and the optional inline audio part — represented
by the duration of the buffer it decodes to. -/
structure ServerMessage where
  functionCalls : Option (List FunctionCall)
  inputTranscription : Option String
  inlineAudio : Option ℚ
  deriving DecidableEq, Repr

/-- A value that the JavaScript expression
`OperationType[opKey] || OperationType.UNKNOWN` can evaluate to.  The
compiled string enum is a plain object, so bracket access can also find a
member inherited from `Object.prototype`; such a member is truthy, survives
the `||` fallback, and flows to the operation callback unconverted. -/
inductive JsEnumValue where
  /-- An own property of the enum object: one of the declared variants. -/
  | operation (op : OperationType)
  /-- A truthy member inherited from `Object.prototype`, carried here by
  the property name it was looked up under. -/
  | inherited (name : String)
  deriving DecidableEq, Repr

/-- The property names every plain object inherits from
`Object.prototype`; each of them holds a truthy value (a function, or the
prototype object itself for the `__proto__` accessor). -/
def objectPrototypeMembers : List String :=
  ["constructor", "hasOwnProperty", "isPrototypeOf", "propertyIsEnumerable",
   "toLocaleString", "toString", "valueOf", "__proto__",
   "__defineGetter__", "__defineSetter__", "__lookupGetter__",
   "__lookupSetter__"]

/-- An observable effect of a hook callback. -/
inductive HookOutput where
  /-- The `onOperation` prop invoked with
  `(OperationType[opKey] || UNKNOWN, Number(args.value))`; the first
  argument is whatever the lookup produced, so it may be an inherited
  prototype member rather than a declared variant. -/
  | opCallback (op : JsEnumValue) (value : ℚ)
  /-- `session.sendToolResponse` acknowledging invocation `id` with the
  given `response.result` string. -/
  | toolAck (id : String) (resp : String)
  /-- The `onTranscriptUpdate` prop invoked with the heard text. -/
  | transcriptCallback (text : String)
  /-- `source.start(start)` on a decoded buffer of the given duration. -/
  | playAt (start : ℚ) (duration : ℚ)
  deriving DecidableEq, Repr

/-- The `response.result` string sent with every tool acknowledgement. -/
def respOk : String := "ok, state updated"

/-- `OperationType[opKey]` as JavaScript evaluates it: the own properties
of the compiled enum object first — every declared key (including
`UNKNOWN`) maps to its variant — then the prototype chain, where
`Object.prototype`'s members are found and are all truthy; only a name
found nowhere yields `undefined` (`none`). -/
def operationTypeKey (key : String) : Option JsEnumValue :=
  if key = "ADD" then some (JsEnumValue.operation OperationType.ADD)
  else if key = "SUBTRACT" then some (JsEnumValue.operation OperationType.SUBTRACT)
  else if key = "MULTIPLY" then some (JsEnumValue.operation OperationType.MULTIPLY)
  else if key = "DIVIDE" then some (JsEnumValue.operation OperationType.DIVIDE)
  else if key = "RESET" then some (JsEnumValue.operation OperationType.RESET)
  else if key = "UNKNOWN" then some (JsEnumValue.operation OperationType.UNKNOWN)
  else if key ∈ objectPrototypeMembers then some (JsEnumValue.inherited key)
  else none

/-- `OperationType[opKey] || OperationType.UNKNOWN`: the `||` fallback
fires only on the falsy `undefined`; every found value — a declared
variant or a truthy inherited member — passes through unchanged. -/
def lookupOperation (key : String) : JsEnumValue :=
  (operationTypeKey key).getD (JsEnumValue.operation OperationType.UNKNOWN)

/-- The body of the `for (const fc of message.toolCall.functionCalls)` loop:
an invocation of the declared tool invokes the operation callback and then
sends exactly one acknowledgement carrying `fc.id`; any other function name
is ignored.  (In the source the acknowledgement is queued on the session
promise; since the session promise is already resolved while messages
arrive, acknowledgements are sent in queueing order, which is the order
modelled here.) -/
def processFunctionCall (fc : FunctionCall) : List HookOutput :=
  if fc.name = "performMathOperation" then
    [HookOutput.opCallback (lookupOperation fc.operation) fc.value,
     HookOutput.toolAck fc.id respOk]
  else []

/-- The playback-scheduling step on a decoded buffer of duration `d`
arriving when the output clock reads `now`:
`nextStartTime = max(nextStartTime, ctx.currentTime)`, the buffer starts at
that watermark, and the watermark then advances by the duration.  Returns
`(start, new watermark)`. -/
def scheduleFragment (tNext now d : ℚ) : ℚ × ℚ :=
  let start := max tNext now
  (start, start + d)

/-- The hook's `onmessage` callback: dispatch the tool calls, then the
transcription, then the inline audio (scheduled only when the output
context ref is non-null, i.e. the session has not been torn down).
Returns the new state and the emitted effects in program order. -/
def onmessage (s : HookState) (now : ℚ) (msg : ServerMessage) :
    HookState × List HookOutput :=
  let toolOuts := (msg.functionCalls.getD []).flatMap processFunctionCall
  let transcriptOuts :=
    match msg.inputTranscription with
    | some t => [HookOutput.transcriptCallback t]
    | none => []
  match msg.inlineAudio with
  | some d =>
    if s.outputCtxOpen then
      let p := scheduleFragment s.nextStartTime now d
      ({ s with nextStartTime := p.2, sources := s.sources + 1 },
       toolOuts ++ transcriptOuts ++ [HookOutput.playAt p.1 d])
    else (s, toolOuts ++ transcriptOuts)
  | none => (s, toolOuts ++ transcriptOuts)

/-- The `scriptProcessor.onaudioprocess` callback: when the active guard is
cleared it returns immediately and nothing is transmitted; otherwise the
captured frame is encoded (in `audioUtils`, outside this model) and sent
over the session. -/
def onaudioprocess (s : HookState) (frame : List ℚ) : Option (List ℚ) :=
  if s.active then some frame else none

/-- The `onopen` callback: mark connected, stop connecting, set the active
guard, and attach the capture pipeline. -/
def onopen (s : HookState) : HookState :=
  { s with isConnected := true, isConnecting := false, active := true }

/-- The `onclose` callback: clear `isConnected` and the active guard. -/
def onclose (s : HookState) : HookState :=
  { s with isConnected := false, active := false }

/-- The `onerror` callback: set the generic connectivity error string,
clear `isConnected` and the active guard — and nothing else. -/
def onerror (s : HookState) : HookState :=
  { s with
    error := some "Connection error occurred.",
    isConnected := false, active := false }

/-- `connect()`.  When the active guard is set it returns immediately.
Otherwise it enters the connecting state, clears the error, and — with
`setupOk` standing for the audio/permission/connection setup succeeding —
either holds open audio contexts and a pending session (the state from
which `onopen` later fires), or lands in the catch block, which records the
failure message and clears `isConnecting`. -/
def connect (s : HookState) (setupOk : Bool) : HookState :=
  if s.active then s
  else if setupOk then
    { s with
      isConnecting := true, error := none,
      inputCtxOpen := true, outputCtxOpen := true, sessionOpen := true }
  else
    { s with
      isConnecting := false,
      error := some "Failed to connect to microphone or API" }

/-- `disconnect()`: clear the active guard first; then close the input
context if present; then, if the output context is present, stop every
scheduled source, clear the set, and close it; then close the session if
present; finally clear both `isConnected` and `isConnecting`.  Every step
is guarded by a `null` check, so the function is total from any state. -/
def disconnect (s : HookState) : HookState :=
  let s1 := { s with active := false }
  let s2 :=
    if s1.inputCtxOpen then { s1 with inputCtxOpen := false } else s1
  let s3 :=
    if s2.outputCtxOpen then
      { s2 with sources := 0, outputCtxOpen := false }
    else s2
  let s4 := if s3.sessionOpen then { s3 with sessionOpen := false } else s3
  { s4 with isConnected := false, isConnecting := false }

/-- Iterated playback scheduling: fragments `(now, d)` in arrival order,
each processed by `scheduleFragment`; returns the `(start, duration)`
pairs in playback-schedule order. -/
def scheduleStarts : ℚ → List (ℚ × ℚ) → List (ℚ × ℚ)
  | _, [] => []
  | tNext, (now, d) :: rest =>
    let p := scheduleFragment tNext now d
    (p.1, d) :: scheduleStarts p.2 rest

/-- The acknowledgement identifiers among a handler's outputs, in order. -/
def ackIds (outs : List HookOutput) : List String :=
  outs.filterMap fun o =>
    match o with
    | HookOutput.toolAck i _ => some i
    | _ => none

/-!
## Theorems
-/

/-- The Visualizer's per-item step agrees with the App's `switch` block on
every operation, including the divide-by-zero guard and `UNKNOWN`. -/
theorem visStep_eq_stepTotal (t : ℚ) (op : OperationType) (v : ℚ)
    (i : String) (ts : ℕ) :
    visStep t { id := i, value := v, operation := op, timestamp := ts } =
      stepTotal t op v := by
  cases op <;> simp [visStep, stepTotal]

/-- `handleOperation` preserves the agreement between the App's running
total and the Visualizer's fold over the history. -/
theorem handleOperation_total_eq_fold (s : AppState) (op : OperationType)
    (v : ℚ) (i : String) (ts : ℕ)
    (h : s.currentTotal = List.foldl visStep 0 s.history) :
    (handleOperation s op v i ts).currentTotal =
      List.foldl visStep 0 (handleOperation s op v i ts).history := by
  by_cases hop : op = OperationType.RESET
  · simp [handleOperation, hop]
  · simp [handleOperation, hop, List.foldl_concat, visStep_eq_stepTotal, h]

/-- The agreement invariant carries over any operation sequence. -/
theorem applyOps_total_eq_fold :
    ∀ (ops : List (OperationType × ℚ × String × ℕ)) (s : AppState),
      s.currentTotal = List.foldl visStep 0 s.history →
      (applyOps s ops).currentTotal =
        List.foldl visStep 0 (applyOps s ops).history
  | [], _, h => h
  | (op, v, i, ts) :: rest, s, h =>
    applyOps_total_eq_fold rest (handleOperation s op v i ts)
      (handleOperation_total_eq_fold s op v i ts h)

/-- The last entry of a `scanl` is the corresponding `foldl`. -/
theorem getLast?_scanl {α β : Type} (f : β → α → β) :
    ∀ (l : List α) (b : β),
      (List.scanl f b l).getLast? = some (List.foldl f b l)
  | [], b => rfl
  | a :: l, b => by
    rw [List.scanl_cons, List.foldl_cons]
    have htail := getLast?_scanl f l (f b a)
    cases hs : List.scanl f (f b a) l with
    | nil => simp [hs] at htail
    | cons c cs =>
      rw [hs] at htail
      simp [hs, htail]

/-- C9: For every sequence of `(operation, value)` pairs applied through the
App's operation callback, the final running total equals the last point of
the Visualizer's running-total fold recomputed over the resulting history
list — the two accumulator computations are equivalent, including the
divide-by-zero guard and `UNKNOWN` operations leaving the total
unchanged. -/
theorem C9_app_total_matches_visualizer
    (ops : List (OperationType × ℚ × String × ℕ)) :
    (visualizerTotals (applyOps initialApp ops).history).getLast? =
      some (applyOps initialApp ops).currentTotal := by
  rw [visualizerTotals, getLast?_scanl]
  exact congrArg some (applyOps_total_eq_fold ops initialApp rfl).symm

/-- `handleOperation` never puts a `RESET` item into the history: `RESET`
clears it, and every other operation appends an item tagged with itself. -/
theorem handleOperation_no_reset_in_history (s : AppState)
    (op : OperationType) (v : ℚ) (i : String) (ts : ℕ)
    (hs : ∀ item ∈ s.history, item.operation ≠ OperationType.RESET) :
    ∀ item ∈ (handleOperation s op v i ts).history,
      item.operation ≠ OperationType.RESET := by
  intro item hmem
  by_cases hop : op = OperationType.RESET
  · simp [handleOperation, hop] at hmem
  · simp [handleOperation, hop] at hmem
    rcases hmem with hmem | hmem
    · exact hs item hmem
    · rw [hmem]
      simpa using hop

/-- The no-`RESET`-in-history invariant carries over any operation
sequence. -/
theorem applyOps_no_reset_in_history :
    ∀ (ops : List (OperationType × ℚ × String × ℕ)) (s : AppState),
      (∀ item ∈ s.history, item.operation ≠ OperationType.RESET) →
      ∀ item ∈ (applyOps s ops).history,
        item.operation ≠ OperationType.RESET
  | [], _, hs => hs
  | (op, v, i, ts) :: rest, s, hs =>
    applyOps_no_reset_in_history rest (handleOperation s op v i ts)
      (handleOperation_no_reset_in_history s op v i ts hs)

/-- C10: A `Reset` operation sets the running total to `0` and clears the
entire history, so the history reachable from the initial state never
contains a `Reset` item, while an `Unknown` operation is appended to the
history with its operand. -/
theorem C10_reset_clears_history_and_is_never_recorded (s : AppState)
    (v : ℚ) (i : String) (ts : ℕ)
    (ops : List (OperationType × ℚ × String × ℕ)) :
    handleOperation s OperationType.RESET v i ts =
      { currentTotal := 0, history := [] } ∧
    (handleOperation s OperationType.UNKNOWN v i ts).history =
      s.history ++
        [{ id := i, value := v, operation := OperationType.UNKNOWN,
           timestamp := ts }] ∧
    ∀ item ∈ (applyOps initialApp ops).history,
      item.operation ≠ OperationType.RESET := by
  refine ⟨by simp [handleOperation], by simp [handleOperation], ?_⟩
  exact applyOps_no_reset_in_history ops initialApp (by simp [initialApp])

/-- C3: `Divide` with operand `0` leaves the running total unchanged (the
`if (value !== 0)` guard), while the tool invocation carrying it is still
acknowledged with the ok result. -/
theorem C3_divide_by_zero_keeps_total_and_is_acked (s : AppState)
    (i : String) (ts : ℕ) (fcid : String) :
    (handleOperation s OperationType.DIVIDE 0 i ts).currentTotal =
      s.currentTotal ∧
    processFunctionCall
        { id := fcid, name := "performMathOperation",
          operation := "DIVIDE", value := 0 } =
      [HookOutput.opCallback (JsEnumValue.operation OperationType.DIVIDE) 0,
       HookOutput.toolAck fcid respOk] := by
  constructor
  · simp [handleOperation, stepTotal]
  · simp [processFunctionCall, lookupOperation, operationTypeKey]

/-- C7: `connect()` called while a Session is already active (the active
guard is set) is a no-op: the whole hook state — in particular the
observable `isConnected` / `isConnecting` / `error` and the session and
audio-subsystem handles — is unchanged. -/
theorem C7_connect_noop_when_active (s : HookState) (setupOk : Bool)
    (h : s.active = true) :
    connect s setupOk = s := by
  simp [connect, h]

/-- Witness for C7 at the concrete state reached by a successful
`connect()` followed by `onopen`. -/
theorem C7_connect_noop_when_active_witness :
    (onopen (connect initialHook true)).active = true ∧
    connect (onopen (connect initialHook true)) true =
      onopen (connect initialHook true) :=
  ⟨rfl, C7_connect_noop_when_active (onopen (connect initialHook true))
    true rfl⟩

/-- Teardown clears the active guard. -/
theorem disconnect_active (s : HookState) : (disconnect s).active = false := by
  obtain ⟨c, g, e, i, o, t, src, sess, a⟩ := s
  cases i <;> cases o <;> cases sess <;> rfl

/-- Teardown always leaves the output-context ref `null`. -/
theorem disconnect_outputCtxOpen (s : HookState) :
    (disconnect s).outputCtxOpen = false := by
  obtain ⟨c, g, e, i, o, t, src, sess, a⟩ := s
  cases i <;> cases o <;> cases sess <;> rfl

/-- C8: `disconnect()` is safe from any state — twice in a row, or before
any `connect()` — it is a total function that raises nothing, leaves
`isConnected = false` and `isConnecting = false` (also after a second
call), and does not touch the surfaced error. -/
theorem C8_disconnect_safe_from_any_state (s : HookState) :
    (disconnect s).isConnected = false ∧
    (disconnect s).isConnecting = false ∧
    (disconnect (disconnect s)).isConnected = false ∧
    (disconnect (disconnect s)).isConnecting = false ∧
    (disconnect s).error = s.error := by
  obtain ⟨c, g, e, i, o, t, src, sess, a⟩ := s
  cases i <;> cases o <;> cases sess <;> exact ⟨rfl, rfl, rfl, rfl, rfl⟩

/-- C5 counterexample: run a session up to one scheduled playback buffer,
then hit a transport error.  `onerror` leaves the input and output audio
subsystems open, the scheduled buffer still in the active set, and the
connection unclosed — the session is not torn down fully, contrary to the
claim. -/
theorem C5_counterexample :
    (onerror ((onmessage (onopen (connect initialHook true)) 0
        { functionCalls := none, inputTranscription := none,
          inlineAudio := some 1 }).1)).inputCtxOpen = true ∧
    (onerror ((onmessage (onopen (connect initialHook true)) 0
        { functionCalls := none, inputTranscription := none,
          inlineAudio := some 1 }).1)).outputCtxOpen = true ∧
    (onerror ((onmessage (onopen (connect initialHook true)) 0
        { functionCalls := none, inputTranscription := none,
          inlineAudio := some 1 }).1)).sources = 1 ∧
    (onerror ((onmessage (onopen (connect initialHook true)) 0
        { functionCalls := none, inputTranscription := none,
          inlineAudio := some 1 }).1)).sessionOpen = true := by
  decide

/-- C5 (amended): on a transport-level error while `Open`, the generic
connectivity error message is surfaced, `isConnected` and the active guard
are cleared, and no automatic reconnect is attempted — but the audio
input/output subsystems stay open, the scheduled-buffer set is untouched,
and the connection is not closed until the user explicitly calls
`disconnect()`. -/
theorem C5_transport_error_surfaced_without_full_teardown (s : HookState) :
    (onerror s).error = some "Connection error occurred." ∧
    (onerror s).isConnected = false ∧
    (onerror s).active = false ∧
    (onerror s).isConnecting = s.isConnecting ∧
    (onerror s).inputCtxOpen = s.inputCtxOpen ∧
    (onerror s).outputCtxOpen = s.outputCtxOpen ∧
    (onerror s).sources = s.sources ∧
    (onerror s).sessionOpen = s.sessionOpen :=
  ⟨rfl, rfl, rfl, rfl, rfl, rfl, rfl, rfl⟩

/-- C4 counterexample: after `disconnect()` has cleared the active guard,
an inbound message is still dispatched to the operation callback and the
transcript callback — contrary to the claim that no further inbound
message is dispatched from the instant teardown begins. -/
theorem C4_counterexample :
    (disconnect (onopen (connect initialHook true))).active = false ∧
    HookOutput.opCallback (JsEnumValue.operation OperationType.ADD) 5 ∈
      (onmessage (disconnect (onopen (connect initialHook true))) 0
        { functionCalls := some
            [{ id := "id1", name := "performMathOperation",
               operation := "ADD", value := 5 }],
          inputTranscription := some "add five",
          inlineAudio := none }).2 ∧
    HookOutput.transcriptCallback "add five" ∈
      (onmessage (disconnect (onopen (connect initialHook true))) 0
        { functionCalls := some
            [{ id := "id1", name := "performMathOperation",
               operation := "ADD", value := 5 }],
          inputTranscription := some "add five",
          inlineAudio := none }).2 := by
  decide

/-- `processFunctionCall` never schedules playback. -/
theorem playAt_notin_processFunctionCall (fc : FunctionCall)
    (st d : ℚ) : HookOutput.playAt st d ∉ processFunctionCall fc := by
  simp only [processFunctionCall]
  split <;> simp

/-- No tool-call dispatch schedules playback. -/
theorem playAt_notin_flatMap (l : List FunctionCall) (st d : ℚ) :
    HookOutput.playAt st d ∉ l.flatMap processFunctionCall := by
  intro hmem
  rw [List.mem_flatMap] at hmem
  obtain ⟨fc, _, hfc⟩ := hmem
  exact playAt_notin_processFunctionCall fc st d hfc

/-- C4 (amended): from the instant the active-session guard is cleared by
`disconnect`, no further captured audio frame is transmitted and no further
inbound audio fragment is scheduled on the playback scheduler (the
playback state is untouched); inbound tool invocations and transcripts,
however, are still dispatched to their callbacks, since `onmessage` does
not consult the guard. -/
theorem C4_teardown_suppresses_capture_and_playback (s : HookState)
    (frame : List ℚ) (now : ℚ) (msg : ServerMessage) :
    onaudioprocess (disconnect s) frame = none ∧
    (∀ st d : ℚ,
      HookOutput.playAt st d ∉ (onmessage (disconnect s) now msg).2) ∧
    (onmessage (disconnect s) now msg).1 = disconnect s := by
  have hact : (disconnect s).active = false := disconnect_active s
  have hout : (disconnect s).outputCtxOpen = false :=
    disconnect_outputCtxOpen s
  refine ⟨by simp [onaudioprocess, hact], ?_, ?_⟩
  · intro st d
    simp only [onmessage]
    cases msg.inlineAudio with
    | none =>
      simp only [List.mem_append]
      rintro (hmem | hmem)
      · exact playAt_notin_flatMap _ st d hmem
      · cases htr : msg.inputTranscription <;> simp [htr] at hmem
    | some dur =>
      rw [hout]
      simp only [Bool.false_eq_true, if_false, List.mem_append]
      rintro (hmem | hmem)
      · exact playAt_notin_flatMap _ st d hmem
      · cases htr : msg.inputTranscription <;> simp [htr] at hmem
  · simp only [onmessage]
    cases msg.inlineAudio with
    | none => rfl
    | some dur => rw [hout]; simp

/-- Dispatching a batch of invocations of the declared tool produces
exactly the invocations' identifiers as acknowledgements, in order. -/
theorem ackIds_flatMap (l : List FunctionCall)
    (h : ∀ fc ∈ l, fc.name = "performMathOperation") :
    ackIds (l.flatMap processFunctionCall) = l.map fun fc => fc.id := by
  induction l with
  | nil => rfl
  | cons fc rest ih =>
    have hname : fc.name = "performMathOperation" := h fc (by simp)
    rw [List.flatMap_cons, List.map_cons, ackIds, List.filterMap_append]
    rw [processFunctionCall, if_pos hname]
    exact congrArg (List.cons fc.id)
      (ih fun g hg => h g (List.mem_cons_of_mem fc hg))

/-- Transcript dispatch emits no acknowledgement. -/
theorem ackIds_transcript (o : Option String) :
    ackIds (match o with
      | some t => [HookOutput.transcriptCallback t]
      | none => []) = [] := by
  cases o <;> rfl

/-- C1: every tool invocation of the declared tool received in a message
yields exactly one tool-result acknowledgement referencing that
invocation's identifier, in receipt order — whatever the operand fields
contain, and whatever else the message carries. -/
theorem C1_every_invocation_acked_once_in_order (s : HookState) (now : ℚ)
    (msg : ServerMessage)
    (h : ∀ fc ∈ msg.functionCalls.getD [], fc.name = "performMathOperation") :
    ackIds (onmessage s now msg).2 =
      (msg.functionCalls.getD []).map fun fc => fc.id := by
  have htool := ackIds_flatMap (msg.functionCalls.getD []) h
  simp only [onmessage]
  cases msg.inlineAudio with
  | none =>
    dsimp only
    rw [ackIds, List.filterMap_append, ← ackIds, ← ackIds, htool,
      ackIds_transcript, List.append_nil]
  | some d =>
    dsimp only
    by_cases hctx : s.outputCtxOpen = true
    · rw [if_pos hctx]
      simp only [ackIds, List.filterMap_append]
      rw [← ackIds, ← ackIds, ← ackIds, htool, ackIds_transcript]
      simp [ackIds]
    · rw [if_neg hctx]
      rw [ackIds, List.filterMap_append, ← ackIds, ← ackIds, htool,
        ackIds_transcript, List.append_nil]

/-- Witness for C1: a two-invocation batch — one well-formed, one with a
malformed operand — alongside a transcript and an audio part, is
acknowledged exactly once per invocation, in order. -/
theorem C1_every_invocation_acked_once_in_order_witness :
    (∀ fc ∈ (ServerMessage.mk
        (some [{ id := "call-a", name := "performMathOperation",
                 operation := "ADD", value := 5 },
               { id := "call-b", name := "performMathOperation",
                 operation := "BOGUS", value := 0 }])
        (some "add five") (some 1)).functionCalls.getD [],
      fc.name = "performMathOperation") ∧
    ackIds (onmessage (onopen (connect initialHook true)) 2
        (ServerMessage.mk
          (some [{ id := "call-a", name := "performMathOperation",
                   operation := "ADD", value := 5 },
                 { id := "call-b", name := "performMathOperation",
                   operation := "BOGUS", value := 0 }])
          (some "add five") (some 1))).2 = ["call-a", "call-b"] :=
  ⟨by decide,
   by
    rw [C1_every_invocation_acked_once_in_order _ _ _ (by decide)]
    rfl⟩

/-- `scheduleStarts` on a fragment batch: the first scheduled start is at
or after the incoming watermark. -/
theorem scheduleStarts_head_ge (t : ℚ) (frags : List (ℚ × ℚ)) :
    ∀ x ∈ (scheduleStarts t frags).head?, t ≤ x.1 := by
  cases frags with
  | nil => intro x hx; simp [scheduleStarts] at hx
  | cons f rest =>
    intro x hx
    obtain ⟨now, d⟩ := f
    simp only [scheduleStarts, scheduleFragment, List.head?_cons,
      Option.mem_def, Option.some.injEq] at hx
    rw [← hx]
    exact le_max_left t now

/-- The scheduled `(start, duration)` pairs are chained: each fragment
starts no earlier than the previous fragment's start plus its duration. -/
theorem scheduleStarts_chain :
    ∀ (frags : List (ℚ × ℚ)) (t : ℚ),
      List.Chain' (fun a b : ℚ × ℚ => a.1 + a.2 ≤ b.1)
        (scheduleStarts t frags)
  | [], _ => List.chain'_nil
  | (now, d) :: rest, t => by
    rw [scheduleStarts, List.chain'_cons']
    refine ⟨?_, scheduleStarts_chain rest _⟩
    exact scheduleStarts_head_ge _ rest

/-- Scheduling preserves nonnegativity of the carried durations. -/
theorem scheduleStarts_durations_nonneg :
    ∀ (frags : List (ℚ × ℚ)) (t : ℚ), (∀ f ∈ frags, 0 ≤ f.2) →
      ∀ x ∈ scheduleStarts t frags, 0 ≤ x.2
  | [], _, _ => by intro x hx; simp [scheduleStarts] at hx
  | (now, d) :: rest, t, h => by
    intro x hx
    rw [scheduleStarts, List.mem_cons] at hx
    rcases hx with hx | hx
    · rw [hx]
      exact h (now, d) (by simp)
    · exact scheduleStarts_durations_nonneg rest _
        (fun f hf => h f (List.mem_cons_of_mem _ hf)) x hx

/-- A schedule in which each entry starts after the previous start plus a
nonnegative duration has non-decreasing starts. -/
theorem chain_le_of_chain_add (l : List (ℚ × ℚ))
    (hd : ∀ x ∈ l, 0 ≤ x.2)
    (hc : List.Chain' (fun a b : ℚ × ℚ => a.1 + a.2 ≤ b.1) l) :
    List.Chain' (fun a b : ℚ × ℚ => a.1 ≤ b.1) l := by
  induction l with
  | nil => exact List.chain'_nil
  | cons x xs ih =>
    rw [List.chain'_cons'] at hc ⊢
    refine ⟨?_, ih (fun y hy => hd y (List.mem_cons_of_mem x hy)) hc.2⟩
    intro y hy
    have h1 := hc.1 y hy
    have hx : 0 ≤ x.2 := hd x (by simp)
    linarith

/-- C2: for any fragment batch `(arrival clock time, duration)` with
nonnegative durations and any starting watermark, the scheduled starts are
chained — each fragment starts no earlier than the previous start plus the
previous duration — and are in particular non-decreasing: no overlap and no
out-of-order playback. -/
theorem C2_playback_gapless_ordered (t0 : ℚ) (frags : List (ℚ × ℚ))
    (h : ∀ f ∈ frags, 0 ≤ f.2) :
    List.Chain' (fun a b : ℚ × ℚ => a.1 + a.2 ≤ b.1)
      (scheduleStarts t0 frags) ∧
    List.Chain' (fun a b : ℚ × ℚ => a.1 ≤ b.1) (scheduleStarts t0 frags) :=
  ⟨scheduleStarts_chain frags t0,
   chain_le_of_chain_add (scheduleStarts t0 frags)
     (scheduleStarts_durations_nonneg frags t0 h)
     (scheduleStarts_chain frags t0)⟩

/-- Witness for C2, the spec's end-to-end scenario in milliseconds:
fragments of 500 ms and 300 ms arriving 50 ms apart are scheduled back to
back at 0 and 500 ms. -/
theorem C2_playback_gapless_ordered_witness :
    (∀ f ∈ ([(0, 500), (50, 300)] : List (ℚ × ℚ)), 0 ≤ f.2) ∧
    (List.Chain' (fun a b : ℚ × ℚ => a.1 + a.2 ≤ b.1)
        (scheduleStarts 0 [(0, 500), (50, 300)]) ∧
      List.Chain' (fun a b : ℚ × ℚ => a.1 ≤ b.1)
        (scheduleStarts 0 [(0, 500), (50, 300)])) :=
  ⟨by decide, C2_playback_gapless_ordered 0 [(0, 500), (50, 300)]
    (by decide)⟩

/-- C6: evaluating the code at the failing input — a tool invocation whose
operation name is the inherited property name `"toString"`, which lies
outside the declared set `{ADD, SUBTRACT, MULTIPLY, DIVIDE, RESET}`.  The
bracket lookup finds the truthy member inherited from `Object.prototype`,
so the `|| UNKNOWN` fallback never fires and the operation callback
receives that non-`UNKNOWN` value (the acknowledgement is still sent); an
undeclared name off the prototype chain, such as `"SQRT"`, does reach the
fallback and is mapped to `UNKNOWN` as the claim describes. -/
theorem C6_inherited_name_bypasses_unknown_fallback :
    ("toString" ∉ (["ADD", "SUBTRACT", "MULTIPLY", "DIVIDE", "RESET"] :
      List String)) ∧
    lookupOperation "toString" = JsEnumValue.inherited "toString" ∧
    lookupOperation "toString" ≠
      JsEnumValue.operation OperationType.UNKNOWN ∧
    processFunctionCall
        { id := "call-7", name := "performMathOperation",
          operation := "toString", value := 1 } =
      [HookOutput.opCallback (JsEnumValue.inherited "toString") 1,
       HookOutput.toolAck "call-7" respOk] ∧
    lookupOperation "SQRT" = JsEnumValue.operation OperationType.UNKNOWN := by
  decide

end VoiceCalc
